import Mathlib

/-!
Verification of the AppleMango-P2-DevCon operating-room scheduler.

This file shallowly embeds the repository's scheduling core in Lean 4:

* `checkConstraints` / `findBestSlot` from `src/lib/scheduler.ts`
  (constraint-satisfaction engine and greedy slot allocator);
* `scheduleSurgery` (server action) composed with the schedule view's
  `handleDrop` as the placement operation `placeSurgery`;
* `shouldEscalate` / `getWaitHours` from the priority-queue view;
* `predictSurgeryDuration`, `scoreScheduleQuality`,
  `predictEquipmentFailure`, `recommendSurgerySequence` from `src/lib/ai.ts`.

Conventions of the embedding:

* Timestamps are integers (milliseconds since the epoch); a TypeScript
  `Date` comparison or difference becomes an integer comparison/difference.
  `Date.getHours()` is modelled in UTC.
* JavaScript `number` arithmetic is modelled over `ℚ` (the computations at
  issue are small-magnitude sums, products and divisions whose compared
  quantities are exactly representable); `Math.round` is `jsRound`, round
  half toward positive infinity, which is JavaScript's behaviour.
* Optional values / possibly-`undefined` joins become `Option`.
* Stable array sorts (ECMAScript `Array.prototype.sort` is stable) are
  modelled with stable insertion sorts.
-/

/-- JavaScript `Math.round`: round half toward positive infinity. -/
def jsRound (x : ℚ) : ℤ := ⌊x + 1/2⌋

/-- `Date.getHours()` of a millisecond timestamp, modelled in UTC. -/
def getHoursOfDay (t : ℤ) : ℤ := (Int.ediv t 3600000) % 24

/-- Room record (`OperatingRoom` in `src/lib/types.ts`); `room_type` and
`status` are the string unions `ORType` / `ORStatus`. -/
structure OperatingRoom where
  id : String
  name : String
  room_type : String
  status : String
  capabilities : List String
deriving Repr, DecidableEq

/-- Staff record (subset of `Staff` in `src/lib/types.ts` used by the
constraint engine). -/
structure Staff where
  id : String
  full_name : String
  specialization : Option String
  max_hours_per_day : ℤ
deriving Repr, DecidableEq

/-- Equipment record (subset of `Equipment` used by the engine). -/
structure Equipment where
  name : String
  status : String
deriving Repr, DecidableEq

/-- Surgery priority (`Priority` union in `src/lib/types.ts`). -/
inductive Priority where
  | emergency
  | urgent
  | elective
deriving Repr, DecidableEq

/-- Surgery record (subset of `Surgery` in `src/lib/types.ts` used by the
scheduler, the placement flow and the priority queue). `created_at` is a
millisecond timestamp; `estimated_duration` is in minutes. -/
structure Surgery where
  id : String
  surgeon_id : Option String
  specialization_required : Option String
  estimated_duration : ℕ
  priority : Priority
  created_at : ℤ
  status : String
deriving Repr, DecidableEq

/-- Schedule slot (`ScheduleSlot` in `src/lib/types.ts`); `surgery` is the
optional joined surgery row. -/
structure ScheduleSlot where
  surgery_id : String
  or_id : String
  start_time : ℤ
  end_time : ℤ
  slot_type : String
  surgery : Option Surgery
deriving Repr, DecidableEq

/-- Result of `checkConstraints` (`ConflictResult` in the scheduler). -/
structure ConflictResult where
  hasConflict : Bool
  hardViolations : List String
  softViolations : List String
  score : ℤ
deriving Repr, DecidableEq

/-- JavaScript truthiness of an optional string: `undefined` and the empty
string are falsy. -/
def strTruthy : Option String → Bool
  | none => false
  | some s => !(s == "")

/-- Message pushed per overlapping slot in the same room. -/
def timeConflictMsg (orName : String) : String :=
  "Time conflict with existing surgery in " ++ orName

/-- Message pushed when the room lacks the required capability. -/
def capabilityMsg (orName spec : String) : String :=
  "OR " ++ orName ++ " lacks capability: " ++ spec

/-- Message pushed on surgeon specialization mismatch. -/
def surgeonMismatchMsg (fullName : String) : String :=
  "Surgeon " ++ fullName ++ " specialization mismatch"

/-- Message pushed when the surgeon would exceed the 12-hour limit. -/
def surgeonHoursMsg (fullName : String) : String :=
  "Surgeon " ++ fullName ++ " would exceed 12-hour limit"

/-- Message pushed for equipment in maintenance or retired. -/
def equipmentUnavailableMsg (eqName eqStatus : String) : String :=
  "Equipment \"" ++ eqName ++ "\" is unavailable (" ++ eqStatus ++ ")"

/-- Message pushed for equipment being sterilized. -/
def equipmentSterilizingMsg (eqName : String) : String :=
  "Equipment \"" ++ eqName ++ "\" is currently being sterilized"

/-- Hard constraint: OR overlap. One message is pushed per slot of the same
room whose half-open window intersects the proposed one
(`proposedStart < slotEnd && proposedEnd > slotStart`). -/
def overlapViolations (proposedOR : OperatingRoom) (proposedStart proposedEnd : ℤ)
    (existingSlots : List ScheduleSlot) : List String :=
  ((existingSlots.filter fun s => s.or_id == proposedOR.id).filter fun s =>
      decide (proposedStart < s.end_time ∧ proposedEnd > s.start_time)).map
    fun _ => timeConflictMsg proposedOR.name

/-- Hard constraint: OR capability. Guarded by truthiness of
`specialization_required` and `room_type !== "general"`; violated when the
capability list misses the tag and the room type differs from it. -/
def capabilityViolations (surgery : Surgery) (proposedOR : OperatingRoom) : List String :=
  match surgery.specialization_required with
  | none => []
  | some spec =>
    if spec ≠ "" ∧ proposedOR.room_type ≠ "general" ∧
        spec ∉ proposedOR.capabilities ∧ proposedOR.room_type ≠ spec then
      [capabilityMsg proposedOR.name spec]
    else []

/-- Hard constraint: surgeon specialization must match the requirement. -/
def surgeonSpecViolations (surgery : Surgery) (surgeon : Option Staff) : List String :=
  match surgeon with
  | none => []
  | some sg =>
    match surgery.specialization_required with
    | none => []
    | some spec =>
      if spec ≠ "" ∧ sg.specialization ≠ some spec then
        [surgeonMismatchMsg sg.full_name]
      else []

/-- Minutes of the surgeon's existing assigned slots
(`reduce((sum, s) => sum + (end - start) / 60000, 0)`). -/
def surgeonAssignedMinutes (sg : Staff) (existingSlots : List ScheduleSlot) : ℚ :=
  (existingSlots.filter fun s => (s.surgery.bind Surgery.surgeon_id) == some sg.id).foldl
    (fun sum s => sum + ((s.end_time : ℚ) - (s.start_time : ℚ)) / 60000) 0

/-- Hard constraint: surgeon hours. The source compares against the literal
`12 * 60` minutes (the `Staff.max_hours_per_day` attribute is not read). -/
def surgeonHoursViolations (surgeon : Option Staff) (proposedStart proposedEnd : ℤ)
    (existingSlots : List ScheduleSlot) : List String :=
  match surgeon with
  | none => []
  | some sg =>
    let totalMinutes := surgeonAssignedMinutes sg existingSlots
    let newDuration : ℚ := ((proposedEnd : ℚ) - (proposedStart : ℚ)) / 60000
    if totalMinutes + newDuration > 12 * 60 then [surgeonHoursMsg sg.full_name] else []

/-- Hard constraint: equipment availability. Two independent pushes per
equipment item (maintenance/retired, then sterilizing). -/
def equipmentViolations (equipmentList : Option (List Equipment)) : List String :=
  match equipmentList with
  | none => []
  | some eqs =>
    (eqs.map fun eq =>
      (if eq.status = "maintenance" ∨ eq.status = "retired" then
        [equipmentUnavailableMsg eq.name eq.status]
      else []) ++
      (if eq.status = "sterilizing" then [equipmentSterilizingMsg eq.name] else [])).flatten

/-- All hard violations, in the push order of `checkConstraints`. -/
def hardViolationsOf (surgery : Surgery) (proposedOR : OperatingRoom)
    (proposedStart proposedEnd : ℤ) (existingSlots : List ScheduleSlot)
    (surgeon : Option Staff) (equipmentList : Option (List Equipment)) : List String :=
  overlapViolations proposedOR proposedStart proposedEnd existingSlots ++
  capabilityViolations surgery proposedOR ++
  surgeonSpecViolations surgery surgeon ++
  surgeonHoursViolations surgeon proposedStart proposedEnd existingSlots ++
  equipmentViolations equipmentList

/-- Soft violations of `checkConstraints`: overtime past 18:00, early start
before 07:00, and a >60-minute gap after the latest slot of the room. -/
def softViolationsOf (proposedOR : OperatingRoom) (proposedStart proposedEnd : ℤ)
    (existingSlots : List ScheduleSlot) : List String :=
  let orSlots := existingSlots.filter fun s => s.or_id == proposedOR.id
  (if getHoursOfDay proposedEnd ≥ 18 then ["Surgery extends past regular hours (18:00)"] else []) ++
  (if getHoursOfDay proposedStart < 7 then ["Surgery starts before 07:00"] else []) ++
  (match orSlots.map ScheduleSlot.end_time with
   | [] => []
   | e :: es =>
     let lastSlotEnd := es.foldl max e
     let gap : ℚ := ((proposedStart : ℚ) - (lastSlotEnd : ℚ)) / 60000
     if gap > 60 then
       [toString (jsRound gap) ++ "min gap before this surgery — OR underutilized"]
     else [])

/-- Constraint engine `checkConstraints` of `src/lib/scheduler.ts`: checks a
proposed placement against all hard and soft constraints and scores it. -/
def checkConstraints (surgery : Surgery) (proposedOR : OperatingRoom)
    (proposedStart proposedEnd : ℤ) (existingSlots : List ScheduleSlot)
    (surgeon : Option Staff := none)
    (equipmentList : Option (List Equipment) := none) : ConflictResult :=
  let hardViolations :=
    hardViolationsOf surgery proposedOR proposedStart proposedEnd existingSlots
      surgeon equipmentList
  let softViolations := softViolationsOf proposedOR proposedStart proposedEnd existingSlots
  { hasConflict := decide (0 < hardViolations.length)
    hardViolations := hardViolations
    softViolations := softViolations
    score := max 0 (100 - 25 * (hardViolations.length : ℤ) - 5 * (softViolations.length : ℤ)) }

/-- Setup padding of the allocator and the placement flow: 15 minutes. -/
def SETUP_MS : ℤ := 15 * 60000

/-- Cleanup padding of the allocator and the placement flow: 15 minutes. -/
def CLEANUP_MS : ℤ := 15 * 60000

/-- Stable insertion (ascending by `start_time`) modelling the stable
ECMAScript sort `(a, b) => a.start_time - b.start_time`. -/
def insertByStart (x : ScheduleSlot) : List ScheduleSlot → List ScheduleSlot
  | [] => [x]
  | y :: ys =>
    if y.start_time < x.start_time then y :: insertByStart x ys else x :: y :: ys

/-- Stable sort of room slots by start time. -/
def sortByStart (l : List ScheduleSlot) : List ScheduleSlot :=
  l.foldr insertByStart []

/-- The gap search of `findBestSlot`: walk the room's slots in start order,
take the first gap of at least `totalMs` (returning the gap's start time),
else try after the last slot, bounded by `dayEnd`. -/
def searchGap (totalMs dayEnd : ℤ) : List ScheduleSlot → ℤ → Option ℤ
  | [], searchTime => if searchTime + totalMs ≤ dayEnd then some searchTime else none
  | slot :: rest, searchTime =>
    if slot.start_time - searchTime ≥ totalMs then some searchTime
    else searchGap totalMs dayEnd rest (max searchTime slot.end_time)

/-- Room-type compatibility pre-filter of `findBestSlot`: a room is skipped
when a (truthy) specialization is required and the room is neither `general`
nor of that type. -/
def findSkipsRoom (surgery : Surgery) (room : OperatingRoom) : Bool :=
  match surgery.specialization_required with
  | none => false
  | some spec =>
    decide (spec ≠ "" ∧ room.room_type ≠ "general" ∧ room.room_type ≠ spec)

/-- Allocator `findBestSlot` of `src/lib/scheduler.ts`: greedy first-fit over
rooms in order; the day window is 07:00–20:00 of `base` (midnight of the
requested date, in ms); the returned window excludes the 15-minute setup and
cleanup paddings. -/
def findBestSlot (surgery : Surgery) (rooms : List OperatingRoom)
    (existingSlots : List ScheduleSlot) (base : ℤ) :
    Option (OperatingRoom × ℤ × ℤ) :=
  match rooms with
  | [] => none
  | room :: rest =>
    if findSkipsRoom surgery room then findBestSlot surgery rest existingSlots base
    else
      let durationMs : ℤ := (surgery.estimated_duration : ℤ) * 60000
      let totalMs := SETUP_MS + durationMs + CLEANUP_MS
      let dayStart := base + 7 * 3600000
      let dayEnd := base + 20 * 3600000
      let roomSlots := sortByStart (existingSlots.filter fun s => s.or_id == room.id)
      match searchGap totalMs dayEnd roomSlots dayStart with
      | some w => some (room, w + SETUP_MS, w + SETUP_MS + durationMs)
      | none => findBestSlot surgery rest existingSlots base

/-- Placement operation (spec's `Place`): the schedule view's `handleDrop`
(constraint re-validation, excluding the surgery's own slots when re-dragging)
composed with the `scheduleSurgery` server action of
`src/app/actions/surgery.ts` (update the surgery to `scheduled` and insert
the setup/surgery/cleanup slots — the action contains no delete of the
surgery's pre-existing slots). On a hard violation the drop handler returns
before calling the action, so the state is unchanged and the violation
messages are surfaced. The result is the new slot table and surgery status. -/
def placeSurgery (surgery : Surgery) (room : OperatingRoom) (dragFromSlot : Bool)
    (startTime : ℤ) (slots : List ScheduleSlot) :
    Except (List String) (List ScheduleSlot × String) :=
  let endTime := startTime + (surgery.estimated_duration : ℤ) * 60000
  let filteredSlots :=
    if dragFromSlot then slots.filter (fun s => !(s.surgery_id == surgery.id)) else slots
  let result := checkConstraints surgery room startTime endTime filteredSlots none none
  if result.hasConflict then Except.error result.hardViolations
  else
    let setupStart := startTime - 15 * 60000
    let cleanupEnd := endTime + 15 * 60000
    Except.ok
      (slots ++
        [{ surgery_id := surgery.id, or_id := room.id, start_time := setupStart,
           end_time := startTime, slot_type := "setup", surgery := none },
         { surgery_id := surgery.id, or_id := room.id, start_time := startTime,
           end_time := endTime, slot_type := "surgery", surgery := none },
         { surgery_id := surgery.id, or_id := room.id, start_time := endTime,
           end_time := cleanupEnd, slot_type := "cleanup", surgery := none }],
       "scheduled")

example :
    (checkConstraints
      { id := "s1", surgeon_id := none, specialization_required := none,
        estimated_duration := 60, priority := .elective, created_at := 0, status := "pending" }
      { id := "r1", name := "OR-1", room_type := "general", status := "available",
        capabilities := [] }
      36000000 39600000
      [{ surgery_id := "s2", or_id := "r1", start_time := 39540000, end_time := 43200000,
         slot_type := "surgery", surgery := none }]).hasConflict = true := by decide

example :
    findBestSlot
      { id := "s1", surgeon_id := none, specialization_required := none,
        estimated_duration := 60, priority := .elective, created_at := 0, status := "pending" }
      [{ id := "r1", name := "OR-1", room_type := "general", status := "available",
         capabilities := [] }]
      [] 0 = some
        ({ id := "r1", name := "OR-1", room_type := "general", status := "available",
           capabilities := [] }, 26100000, 29700000) := by decide

/-- Wait hours of the priority-queue view: `Math.round((now - created) / 3600000)`. -/
def getWaitHours (now createdAt : ℤ) : ℤ :=
  jsRound (((now : ℚ) - (createdAt : ℚ)) / 3600000)

/-- Escalation predicate `shouldEscalate` of the priority-queue view:
elective escalates past 72 waiting hours, urgent past 48, emergency never. -/
def shouldEscalate (s : Surgery) (now : ℤ) : Bool :=
  let hours := getWaitHours now s.created_at
  if s.priority = .elective ∧ hours > 72 then true
  else if s.priority = .urgent ∧ hours > 48 then true
  else false

/-- Feature vector of `predictSurgeryDuration`; the optional TypeScript
parameters are fields with the source's destructuring defaults. -/
structure DurationParams where
  complexity : ℚ
  estimatedDuration : ℚ
  patientAge : ℚ := 45
  patientBmi : ℚ := 25
  asaScore : ℚ := 2
  hourOfDay : ℚ := 10
  dayOfWeek : ℚ := 2
  isFemale : Bool := false
  isEmergency : Bool := false
  hasComorbidities : Bool := false
deriving Repr, DecidableEq

/-- Output of `predictSurgeryDuration` (`DurationPrediction`); the numeric
fields stay rationals to mirror the TypeScript `number` type, and
`featureContributions` is the record in insertion order. -/
structure DurationPrediction where
  predicted : ℚ
  lower : ℚ
  upper : ℚ
  confidence : ℚ
  featureContributions : List (String × ℚ)
deriving Repr, DecidableEq

/-- Duration regression `predictSurgeryDuration` of `src/lib/ai.ts`:
weighted sum of feature contributions, a complexity×ASA interaction for
high-acuity cases, a 15-minute floor, and margin-derived bounds. -/
def predictSurgeryDuration (p : DurationParams) : DurationPrediction :=
  let contributions : List (String × ℚ) :=
    [("Intercept", 8.42),
     ("Complexity", 12.75 * p.complexity),
     ("Estimated Duration", 0.92 * p.estimatedDuration),
     ("Patient Age", 0.35 * max 0 (p.patientAge - 40) * 0.1),
     ("Patient BMI", 0.48 * max 0 (p.patientBmi - 25) * 0.1),
     ("ASA Score", 6.8 * (p.asaScore - 1)),
     ("Hour of Day", if p.hourOfDay ≥ 14 then 0.85 * (p.hourOfDay - 14) else 0),
     ("Day of Week", -0.5 * |p.dayOfWeek - 2|),
     ("Gender", if p.isFemale then -2.1 else 0),
     ("Emergency", if p.isEmergency then 8.5 else 0),
     ("Comorbidities", if p.hasComorbidities then 5.2 else 0)]
  let summed : ℚ := (contributions.map Prod.snd).foldl (· + ·) 0
  let withInteraction : ℚ :=
    if p.complexity ≥ 4 ∧ p.asaScore ≥ 3 then
      summed + (p.complexity - 3) * (p.asaScore - 2) * 3.5
    else summed
  let predicted : ℚ := max 15 ((jsRound withInteraction : ℤ) : ℚ)
  let marginPct : ℚ := 0.08 + p.complexity * 0.025 + (if p.isEmergency then 0.06 else 0)
  let lower : ℚ := ((jsRound (predicted * (1 - marginPct)) : ℤ) : ℚ)
  let upper : ℚ := ((jsRound (predicted * (1 + marginPct)) : ℤ) : ℚ)
  let confidence : ℚ :=
    max 55 ((jsRound (95 - p.complexity * 4 - (if p.isEmergency then 8 else 0) -
      (if p.asaScore > 3 then 5 else 0)) : ℤ) : ℚ)
  { predicted := predicted, lower := lower, upper := upper,
    confidence := confidence, featureContributions := contributions }

/-- Input slot of `scoreScheduleQuality`; `stop` is the slot's `end` field
(`end` is reserved in Lean). -/
structure SlotInfo where
  start : ℤ
  stop : ℤ
  priority : String
  procedureType : Option String
  complexity : Option ℚ
  surgeonId : Option String
deriving Repr, DecidableEq

/-- Output of `scoreScheduleQuality` (`ScheduleScore`). -/
structure ScheduleScore where
  score : ℤ
  grade : String
  issues : List String
  recommendations : List String
  disruptionProbability : ℤ
deriving Repr, DecidableEq

/-- Stable insertion (ascending by `start`) modelling the stable ECMAScript
sort `(a, b) => a.start.getTime() - b.start.getTime()`. -/
def insertSlotInfo (x : SlotInfo) : List SlotInfo → List SlotInfo
  | [] => [x]
  | y :: ys => if y.start < x.start then y :: insertSlotInfo x ys else x :: y :: ys

/-- Stable sort of score input slots by start time. -/
def sortSlotInfo (l : List SlotInfo) : List SlotInfo :=
  l.foldr insertSlotInfo []

/-- Idle-gap issues of the scorer: one issue per adjacent pair of the sorted
slots whose gap exceeds 30 minutes; `i` is the 1-based loop index. -/
def gapIssues : SlotInfo → List SlotInfo → ℕ → List String
  | _, [], _ => []
  | prev, cur :: rest, i =>
    let gapMin : ℚ := ((cur.start : ℚ) - (prev.stop : ℚ)) / 60000
    (if gapMin > 30 then
      [toString (jsRound gapMin) ++ "min idle gap between slot " ++ toString i ++
        " and " ++ toString (i + 1)]
    else []) ++ gapIssues cur rest (i + 1)

/-- Whether some adjacent pair of the sorted slots leaves a gap of at least
two hours (the emergency buffer test). -/
def hasBufferPair : SlotInfo → List SlotInfo → Bool
  | _, [] => false
  | prev, cur :: rest =>
    decide ((((cur.start : ℚ) - (prev.stop : ℚ)) / 3600000) ≥ 2) || hasBufferPair cur rest

/-- Whether a run of three or more consecutive high-complexity (≥ 4, with
`complexity ?? 3`) cases occurs; carries the running count. -/
def complexRunHit : List SlotInfo → ℕ → Bool
  | [], _ => false
  | s :: rest, run =>
    let run2 := if (s.complexity.getD 3) ≥ 4 then run + 1 else 0
    if run2 ≥ 3 then true else complexRunHit rest run2

/-- Schedule scorer `scoreScheduleQuality` of `src/lib/ai.ts`: quality score
starting at 100 with penalties for idle gaps, a missing emergency buffer,
overtime slots and high-complexity runs, mapped to a letter grade and a
disruption probability. -/
def scoreScheduleQuality (slots : List SlotInfo) : ScheduleScore :=
  match slots with
  | [] =>
    { score := 100, grade := "A", issues := [],
      recommendations := ["Add surgeries to begin scheduling"], disruptionProbability := 0 }
  | first :: others =>
    let sorted := sortSlotInfo (first :: others)
    let gaps :=
      match sorted with
      | [] => []
      | s0 :: srest => gapIssues s0 srest 1
    let buffer :=
      match sorted with
      | [] => false
      | s0 :: srest => hasBufferPair s0 srest
    let bufferPenalty := !buffer && decide (2 < sorted.length)
    let overtimeCount := (sorted.filter fun s => getHoursOfDay s.stop ≥ 18).length
    let complexHit := complexRunHit sorted 0
    let issues :=
      gaps ++
      (if bufferPenalty then ["No emergency buffer period"] else []) ++
      (if 0 < overtimeCount then
        [toString overtimeCount ++ " surgery(ies) past 18:00"]
      else []) ++
      (if complexHit then ["3+ high-complexity cases in sequence — fatigue risk"] else [])
    let recommendations :=
      (if bufferPenalty then ["Leave a 2h buffer for emergencies"] else []) ++
      (if complexHit then ["Interleave simpler procedures between complex cases"] else [])
    let rawScore : ℤ :=
      100 - 5 * (gaps.length : ℤ) - (if bufferPenalty then 10 else 0) -
        3 * (overtimeCount : ℤ) - (if complexHit then 8 else 0)
    let score := max 0 (min 100 rawScore)
    let disruptionProbability :=
      jsRound (max 5 (min 95 ((100 : ℚ) - (score : ℚ) + ((first :: others).length : ℚ) * 2)))
    { score := score, grade :=
        if score ≥ 90 then "A" else if score ≥ 75 then "B" else if score ≥ 60 then "C"
        else if score ≥ 40 then "D" else "F",
      issues := issues, recommendations := recommendations,
      disruptionProbability := disruptionProbability }

/-- Output of `predictEquipmentFailure` (`FailurePrediction`). The source's
`probability` field is omitted from the embedding: it is computed with the
transcendental `Math.exp` (a logistic curve) and no claim concerns it; every
other field is embedded exactly. -/
structure FailurePrediction where
  risk : String
  score : ℤ
  action : String
  factors : List String
deriving Repr, DecidableEq

/-- Expected maintenance interval per equipment type (`intervals`, default 90). -/
def intervalsFor (equipmentType : String) : ℚ :=
  if equipmentType = "instruments" then 90
  else if equipmentType = "anesthesia" then 180
  else if equipmentType = "cardiac" then 60
  else if equipmentType = "neuro" then 90
  else if equipmentType = "imaging" then 120
  else if equipmentType = "monitoring" then 180
  else 90

/-- Type risk multiplier (`typeMultiplier`, default 1). -/
def typeMultiplierFor (equipmentType : String) : ℚ :=
  if equipmentType = "cardiac" then 1.3
  else if equipmentType = "neuro" then 1.2
  else if equipmentType = "anesthesia" then 1.1
  else if equipmentType = "instruments" then 1.0
  else if equipmentType = "imaging" then 0.9
  else if equipmentType = "monitoring" then 0.8
  else 1

/-- Tail if-chain of `predictEquipmentFailure`: map the score to the risk
band, the recommended action and (for critical) the extra factor. -/
def riskBandOf (score : ℤ) (factors : List String) : FailurePrediction :=
  if score ≥ 80 then
    { risk := "critical", score := score, action := "Immediate maintenance required",
      factors := factors ++ ["Critical failure risk"] }
  else if score ≥ 60 then
    { risk := "high", score := score, action := "Schedule maintenance within 48 hours",
      factors := factors }
  else if score ≥ 40 then
    { risk := "medium", score := score, action := "Monitor closely — maintenance due soon",
      factors := factors }
  else
    { risk := "low", score := score, action := "Normal operation", factors := factors }

/-- Predictive-maintenance scorer `predictEquipmentFailure` of
`src/lib/ai.ts`. Usage counts and days are the database's non-negative
integers; the model matches the source whenever `maxUsage ≠ 0` (in
JavaScript `usageCount / 0` is `Infinity`; in `ℚ` it is `0`). -/
def predictEquipmentFailure (usageCount maxUsage : ℕ) (equipmentType : String)
    (daysSinceLastMaintenance : ℕ) : FailurePrediction :=
  let usageRatio : ℚ := (usageCount : ℚ) / (maxUsage : ℚ)
  let usageFactors : List String :=
    if usageRatio > 0.9 then ["Usage at 90%+ of threshold"]
    else if usageRatio > 0.7 then ["Usage approaching threshold"]
    else []
  let expected := intervalsFor equipmentType
  let ageRisk : ℚ := (daysSinceLastMaintenance : ℚ) / expected
  let ageFactors : List String :=
    if ageRisk > 1 then
      ["Overdue by " ++ toString (jsRound ((ageRisk - 1) * expected)) ++ " days"]
    else []
  let factors := usageFactors ++ ageFactors
  let rawScore : ℚ :=
    usageRatio * 55 + ageRisk * 35 + (typeMultiplierFor equipmentType - 1) * 30
  riskBandOf (jsRound (min 100 rawScore)) factors

/-- Input surgery of `recommendSurgerySequence`. -/
structure SequenceSurgery where
  id : String
  priority : String
  complexity : ℚ
  procedureType : Option String
  estimatedDuration : ℚ
deriving Repr, DecidableEq

/-- Output of `recommendSurgerySequence`. -/
structure SequenceRecommendation where
  orderedIds : List String
  reasoning : List String
deriving Repr, DecidableEq

/-- Priority weight table (`priorityWeight`, `?? 100` for unknown values). -/
def priorityWeightFor (p : String) : ℚ :=
  if p = "emergency" then 1000
  else if p = "urgent" then 500
  else if p = "elective" then 100
  else 100

/-- Ordering score of a surgery (the `score` the source caches on each
mapped object): priority weight plus `(6 - complexity) * 10`. -/
def seqScore (s : SequenceSurgery) : ℚ :=
  priorityWeightFor s.priority + (6 - s.complexity) * 10

/-- Stable insertion (descending by `seqScore`) modelling the stable
ECMAScript sort `(a, b) => b.score - a.score`. -/
def insertByScoreDesc (x : SequenceSurgery) :
    List SequenceSurgery → List SequenceSurgery
  | [] => [x]
  | y :: ys =>
    if seqScore x < seqScore y then y :: insertByScoreDesc x ys else x :: y :: ys

/-- Stable sort of surgeries by descending ordering score. -/
def sortByScoreDesc (l : List SequenceSurgery) : List SequenceSurgery :=
  l.foldr insertByScoreDesc []

/-- Whether `s` batches with `next`: same `procedureType` and same priority. -/
def sameBatch (next s : SequenceSurgery) : Bool :=
  (s.procedureType == next.procedureType) && (s.priority == next.priority)

/-- The batching loop of `recommendSurgerySequence`: repeatedly shift the
highest-scored remaining surgery, then pull every remaining surgery of the
same procedure type and priority right behind it (the source removes each by
object identity via `indexOf`/`splice`, which is exactly a partition of the
remaining list by the batch predicate). -/
def batchSequence : List SequenceSurgery → List SequenceSurgery
  | [] => []
  | next :: rest =>
    next :: (rest.filter (sameBatch next) ++
      batchSequence (rest.filter fun s => !(sameBatch next s)))
termination_by l => l.length
decreasing_by
  simp only [List.length_cons]
  exact Nat.lt_succ_of_le (List.length_filter_le _ _)

/-- Sequencing recommender `recommendSurgerySequence` of `src/lib/ai.ts`:
sort by descending priority/complexity score, then batch same-type
same-priority surgeries together. -/
def recommendSurgerySequence (surgeries : List SequenceSurgery) :
    SequenceRecommendation :=
  { orderedIds := (batchSequence (sortByScoreDesc surgeries)).map SequenceSurgery.id
    reasoning :=
      ["Emergencies first for patient safety",
       "Similar procedures batched for efficiency",
       "Lower complexity as warm-up procedures"] }

/-- Concrete one-slot schedule used to instantiate the scorer. -/
def sampleSlot : SlotInfo :=
  { start := 32400000, stop := 36000000, priority := "elective",
    procedureType := none, complexity := none, surgeonId := none }

/-- Concrete surgery used in the claims' concrete scenarios. -/
def sampleSurgery : Surgery :=
  { id := "s1", surgeon_id := none, specialization_required := none,
    estimated_duration := 60, priority := Priority.elective, created_at := 0,
    status := "pending" }

/-- Concrete general-purpose room used in the claims' concrete scenarios. -/
def sampleRoom : OperatingRoom :=
  { id := "r1", name := "OR-1", room_type := "general", status := "available",
    capabilities := [] }

/-- Concrete surgery slot of `sampleRoom` for a given window. -/
def sampleSlotAt (startTime endTime : ℤ) : ScheduleSlot :=
  { surgery_id := "s2", or_id := "r1", start_time := startTime,
    end_time := endTime, slot_type := "surgery", surgery := none }

/-- Concrete surgeon with `max_hours_per_day = 1`, used to separate the
per-surgeon attribute from the engine's fixed 12-hour threshold. -/
def sampleStaffMax1 : Staff :=
  { id := "d1", full_name := "Dr. Amir", specialization := none,
    max_hours_per_day := 1 }

/-- Concrete room under maintenance. -/
def sampleMaintRoom : OperatingRoom :=
  { id := "r9", name := "OR-9", room_type := "general", status := "maintenance",
    capabilities := [] }

/-- Slots of a previously placed surgery `s1` (window 10:00-11:00 UTC of day
zero, with its 15-minute setup and cleanup paddings) in `sampleRoom`. -/
def sampleOldSlots : List ScheduleSlot :=
  [{ surgery_id := "s1", or_id := "r1", start_time := 35100000,
     end_time := 36000000, slot_type := "setup", surgery := none },
   { surgery_id := "s1", or_id := "r1", start_time := 36000000,
     end_time := 39600000, slot_type := "surgery", surgery := none },
   { surgery_id := "s1", or_id := "r1", start_time := 39600000,
     end_time := 40500000, slot_type := "cleanup", surgery := none }]

/-- The three slots the placement flow inserts for `s1` re-dragged to
13:00-14:00 UTC of day zero. -/
def sampleNewSlots : List ScheduleSlot :=
  [{ surgery_id := "s1", or_id := "r1", start_time := 45900000,
     end_time := 46800000, slot_type := "setup", surgery := none },
   { surgery_id := "s1", or_id := "r1", start_time := 46800000,
     end_time := 50400000, slot_type := "surgery", surgery := none },
   { surgery_id := "s1", or_id := "r1", start_time := 50400000,
     end_time := 51300000, slot_type := "cleanup", surgery := none }]

/-! ## General lemmas about the embedding's primitives -/

theorem jsRound_intCast (k : ℤ) : jsRound ((k : ℤ) : ℚ) = k := by
  unfold jsRound
  rw [Int.floor_eq_iff]
  constructor
  · linarith
  · linarith

theorem jsRound_mono {x y : ℚ} (h : x ≤ y) : jsRound x ≤ jsRound y := by
  unfold jsRound
  exact Int.floor_le_floor (by linarith)

theorem jsRound_le_of_le_intCast {x : ℚ} {k : ℤ} (h : x ≤ (k : ℚ)) : jsRound x ≤ k := by
  have := jsRound_mono h
  rwa [jsRound_intCast] at this

theorem le_jsRound_of_intCast_le {x : ℚ} {k : ℤ} (h : (k : ℚ) ≤ x) : k ≤ jsRound x := by
  have := jsRound_mono h
  rwa [jsRound_intCast] at this

/-! ## C6 — priority-queue escalation -/

/-- Claim C6: for every surgery, `shouldEscalate` is true exactly when the
priority is elective and the rounded wait exceeds 72 hours, or the priority
is urgent and the rounded wait exceeds 48 hours; it is always false for
emergency priority; and an elective surgery created 73 hours ago escalates
while one created 71 hours ago does not. -/
theorem shouldEscalate_thresholds :
    (∀ (s : Surgery) (now : ℤ),
        shouldEscalate s now = true ↔
          ((s.priority = Priority.elective ∧ 72 < getWaitHours now s.created_at) ∨
           (s.priority = Priority.urgent ∧ 48 < getWaitHours now s.created_at))) ∧
    (∀ (s : Surgery) (now : ℤ),
        s.priority = Priority.emergency → shouldEscalate s now = false) ∧
    shouldEscalate
      { id := "e73", surgeon_id := none, specialization_required := none,
        estimated_duration := 60, priority := Priority.elective, created_at := 0,
        status := "pending" } (73 * 3600000) = true ∧
    shouldEscalate
      { id := "e71", surgeon_id := none, specialization_required := none,
        estimated_duration := 60, priority := Priority.elective, created_at := 0,
        status := "pending" } (71 * 3600000) = false := by
  refine ⟨?_, ?_,
    by norm_num [shouldEscalate, getWaitHours, jsRound, Int.floor_eq_iff],
    by
      norm_num [shouldEscalate, getWaitHours, jsRound, Int.floor_eq_iff]
      decide⟩
  · intro s now
    simp only [shouldEscalate]
    split_ifs with h1 h2
    · simp only [true_iff]
      exact Or.inl h1
    · simp only [true_iff]
      exact Or.inr h2
    · simp only [Bool.false_eq_true, false_iff]
      rintro (h | h) <;> [exact h1 h; exact h2 h]
  · intro s now h
    simp only [shouldEscalate]
    split_ifs with h1 h2
    · rw [h] at h1
      exact absurd h1.1 (by simp)
    · rw [h] at h2
      exact absurd h2.1 (by simp)
    · rfl

/-! ## C7 — equipment failure score bounds and risk bands -/

theorem intervalsFor_pos (ty : String) : 0 < intervalsFor ty := by
  unfold intervalsFor
  split_ifs <;> norm_num

theorem typeMultiplierFor_ge (ty : String) : (0.8 : ℚ) ≤ typeMultiplierFor ty := by
  unfold typeMultiplierFor
  split_ifs <;> norm_num

theorem riskBandOf_score (sc : ℤ) (f : List String) : (riskBandOf sc f).score = sc := by
  unfold riskBandOf
  split_ifs <;> rfl

theorem riskBandOf_critical (sc : ℤ) (f : List String) :
    (riskBandOf sc f).risk = "critical" ↔ 80 ≤ sc := by
  unfold riskBandOf
  split_ifs with h1 h2 h3 <;> simp_all <;> omega

theorem riskBandOf_high (sc : ℤ) (f : List String) :
    (riskBandOf sc f).risk = "high" ↔ 60 ≤ sc ∧ sc < 80 := by
  unfold riskBandOf
  split_ifs with h1 h2 h3 <;> simp_all <;> omega

theorem riskBandOf_medium (sc : ℤ) (f : List String) :
    (riskBandOf sc f).risk = "medium" ↔ 40 ≤ sc ∧ sc < 60 := by
  unfold riskBandOf
  split_ifs with h1 h2 h3 <;> simp_all <;> omega

theorem riskBandOf_low (sc : ℤ) (f : List String) :
    (riskBandOf sc f).risk = "low" ↔ sc < 40 := by
  unfold riskBandOf
  split_ifs with h1 h2 h3 <;> simp_all <;> omega

/-- Claim C7 counterexample: at `usageCount = 0`, `maxUsage = 90 > 0`,
`daysSinceLastMaintenance = 0`, `equipmentType = "monitoring"`, the returned
score is `-6`, violating the claimed `0 ≤ score`. -/
theorem predictEquipmentFailure_negative_score_cex :
    (predictEquipmentFailure 0 90 "monitoring" 0).score = -6 := by
  simp only [predictEquipmentFailure]
  rw [riskBandOf_score]
  simp +decide only [intervalsFor, typeMultiplierFor]
  norm_num [jsRound, min_def, Int.floor_eq_iff]

/-- Claim C7 (amended): for every input with `maxUsage > 0` the score lies in
`[-6, 100]` (a type multiplier below 1 — imaging or monitoring — can push an
otherwise fresh item's score as low as `-6`, so the claimed lower bound `0`
fails), and the risk band matches the documented thresholds exactly:
`score ≥ 80 ↔ critical`, `60 ≤ score < 80 ↔ high`, `40 ≤ score < 60 ↔
medium`, `score < 40 ↔ low`. -/
theorem predictEquipmentFailure_bands :
    ∀ (u m d : ℕ) (ty : String), 0 < m →
      (-6 ≤ (predictEquipmentFailure u m ty d).score ∧
        (predictEquipmentFailure u m ty d).score ≤ 100) ∧
      ((predictEquipmentFailure u m ty d).risk = "critical" ↔
        80 ≤ (predictEquipmentFailure u m ty d).score) ∧
      ((predictEquipmentFailure u m ty d).risk = "high" ↔
        60 ≤ (predictEquipmentFailure u m ty d).score ∧
          (predictEquipmentFailure u m ty d).score < 80) ∧
      ((predictEquipmentFailure u m ty d).risk = "medium" ↔
        40 ≤ (predictEquipmentFailure u m ty d).score ∧
          (predictEquipmentFailure u m ty d).score < 60) ∧
      ((predictEquipmentFailure u m ty d).risk = "low" ↔
        (predictEquipmentFailure u m ty d).score < 40) := by
  intro u m d ty _
  have h0 : (0 : ℚ) ≤ (u : ℚ) / (m : ℚ) * 55 := by positivity
  have h1 : (0 : ℚ) ≤ (d : ℚ) / intervalsFor ty * 35 :=
    mul_nonneg (div_nonneg (Nat.cast_nonneg d) (le_of_lt (intervalsFor_pos ty))) (by norm_num)
  have h2 : (-6 : ℚ) ≤ (typeMultiplierFor ty - 1) * 30 := by
    have := typeMultiplierFor_ge ty
    nlinarith
  have hscore : (predictEquipmentFailure u m ty d).score =
      jsRound (min 100 ((u : ℚ) / (m : ℚ) * 55 + (d : ℚ) / intervalsFor ty * 35 +
        (typeMultiplierFor ty - 1) * 30)) := by
    simp only [predictEquipmentFailure]
    rw [riskBandOf_score]
  have hlb : -6 ≤ (predictEquipmentFailure u m ty d).score := by
    rw [hscore]
    refine le_jsRound_of_intCast_le ?_
    push_cast
    exact le_min (by norm_num) (by linarith)
  have hub : (predictEquipmentFailure u m ty d).score ≤ 100 := by
    rw [hscore]
    refine jsRound_le_of_le_intCast ?_
    push_cast
    exact min_le_left _ _
  refine ⟨⟨hlb, hub⟩, ?_, ?_, ?_, ?_⟩ <;>
    simp only [predictEquipmentFailure] <;>
    rw [riskBandOf_score] <;> rw [← hscore]
  · exact (by simp only [predictEquipmentFailure]; exact riskBandOf_critical _ _)
  · exact (by simp only [predictEquipmentFailure]; exact riskBandOf_high _ _)
  · exact (by simp only [predictEquipmentFailure]; exact riskBandOf_medium _ _)
  · exact (by simp only [predictEquipmentFailure]; exact riskBandOf_low _ _)

/-- Witness for C7's amended theorem at a concrete input. -/
theorem predictEquipmentFailure_bands_witness :
    (-6 ≤ (predictEquipmentFailure 90 100 "instruments" 0).score ∧
      (predictEquipmentFailure 90 100 "instruments" 0).score ≤ 100) ∧
    ((predictEquipmentFailure 90 100 "instruments" 0).risk = "critical" ↔
      80 ≤ (predictEquipmentFailure 90 100 "instruments" 0).score) ∧
    ((predictEquipmentFailure 90 100 "instruments" 0).risk = "high" ↔
      60 ≤ (predictEquipmentFailure 90 100 "instruments" 0).score ∧
        (predictEquipmentFailure 90 100 "instruments" 0).score < 80) ∧
    ((predictEquipmentFailure 90 100 "instruments" 0).risk = "medium" ↔
      40 ≤ (predictEquipmentFailure 90 100 "instruments" 0).score ∧
        (predictEquipmentFailure 90 100 "instruments" 0).score < 60) ∧
    ((predictEquipmentFailure 90 100 "instruments" 0).risk = "low" ↔
      (predictEquipmentFailure 90 100 "instruments" 0).score < 40) :=
  predictEquipmentFailure_bands 90 100 0 "instruments" (by norm_num)

/-! ## C8 — disruption probability formula of the schedule scorer -/

theorem jsRound_clamp_formula (sc : ℤ) (n : ℕ) :
    jsRound (max 5 (min 95 ((100 : ℚ) - (sc : ℚ) + (n : ℚ) * 2))) =
      max 5 (min 95 (100 - sc + 2 * (n : ℤ))) := by
  have h1 : ((100 : ℚ) - (sc : ℚ) + (n : ℚ) * 2) = ((100 - sc + 2 * (n : ℤ) : ℤ) : ℚ) := by
    push_cast
    ring
  have h2 : (max 5 (min 95 ((100 - sc + 2 * (n : ℤ) : ℤ) : ℚ))) =
      ((max 5 (min 95 (100 - sc + 2 * (n : ℤ))) : ℤ) : ℚ) := by
    push_cast
    rfl
  rw [h1, h2, jsRound_intCast]

/-- Claim C8 counterexample: for the empty slot list the scorer returns
`disruptionProbability = 0`, while the claimed formula
`clamp(100 - score + 2*slotCount, 5, 95)` gives `5` (score is 100, count 0). -/
theorem scoreSchedule_empty_disruption_cex :
    (scoreScheduleQuality []).disruptionProbability = 0 ∧
    max 5 (min 95 (100 - (scoreScheduleQuality []).score +
      2 * (([] : List SlotInfo).length : ℤ))) = 5 := by
  constructor
  · rfl
  · rfl

/-- Claim C8 (amended): for every nonempty slot list,
`disruptionProbability = clamp(100 - score + 2*slotCount, 5, 95)`; for the
empty list the scorer returns `disruptionProbability = 0` instead (the
claimed formula would give 5). -/
theorem scoreSchedule_disruption_formula :
    ∀ (slots : List SlotInfo), slots ≠ [] →
      (scoreScheduleQuality slots).disruptionProbability =
        max 5 (min 95 (100 - (scoreScheduleQuality slots).score +
          2 * (slots.length : ℤ))) := by
  intro slots h
  cases slots with
  | nil => exact absurd rfl h
  | cons a l =>
    simp only [scoreScheduleQuality]
    rw [jsRound_clamp_formula]

/-- Witness for C8's amended theorem at a concrete one-slot schedule. -/
theorem scoreSchedule_disruption_formula_witness :
    (scoreScheduleQuality [sampleSlot]).disruptionProbability =
      max 5 (min 95 (100 - (scoreScheduleQuality [sampleSlot]).score +
        2 * (([sampleSlot] : List SlotInfo).length : ℤ))) :=
  scoreSchedule_disruption_formula [sampleSlot] (by simp)

/-! ## C9 — duration prediction determinism and bounds -/

theorem duration_core (w m : ℚ) (hm : 0 ≤ m) :
    (∃ k : ℤ, (max 15 ((jsRound w : ℤ) : ℚ)) = (k : ℚ)) ∧
    15 ≤ max 15 ((jsRound w : ℤ) : ℚ) ∧
    ((jsRound ((max 15 ((jsRound w : ℤ) : ℚ)) * (1 - m)) : ℤ) : ℚ) ≤
      max 15 ((jsRound w : ℤ) : ℚ) ∧
    max 15 ((jsRound w : ℤ) : ℚ) ≤
      ((jsRound ((max 15 ((jsRound w : ℤ) : ℚ)) * (1 + m)) : ℤ) : ℚ) := by
  have hcast : max 15 ((jsRound w : ℤ) : ℚ) = ((max 15 (jsRound w) : ℤ) : ℚ) := by
    push_cast
    rfl
  have h15 : (15 : ℚ) ≤ max 15 ((jsRound w : ℤ) : ℚ) := le_max_left _ _
  have hP0 : (0 : ℚ) ≤ max 15 ((jsRound w : ℤ) : ℚ) := by linarith
  have hPm : (0 : ℚ) ≤ max 15 ((jsRound w : ℤ) : ℚ) * m := mul_nonneg hP0 hm
  refine ⟨⟨max 15 (jsRound w), hcast⟩, h15, ?_, ?_⟩
  · have hle : (max 15 ((jsRound w : ℤ) : ℚ)) * (1 - m) ≤
        ((max 15 (jsRound w) : ℤ) : ℚ) := by
      rw [← hcast]
      nlinarith
    have := jsRound_le_of_le_intCast hle
    rw [hcast]
    exact_mod_cast this
  · have hge : ((max 15 (jsRound w) : ℤ) : ℚ) ≤
        (max 15 ((jsRound w : ℤ) : ℚ)) * (1 + m) := by
      rw [← hcast]
      nlinarith
    have := le_jsRound_of_intCast_le hge
    rw [hcast]
    exact_mod_cast this

/-- Claim C9: for every feature vector with complexity in `[1, 5]`,
`predictSurgeryDuration` is deterministic (it is a pure function: equal
inputs give equal outputs), the prediction is an integer number of minutes,
at least 15, and lies between the returned lower and upper bounds. -/
theorem predictSurgeryDuration_bounds :
    ∀ (p : DurationParams), 1 ≤ p.complexity → p.complexity ≤ 5 →
      predictSurgeryDuration p = predictSurgeryDuration p ∧
      (∃ k : ℤ, (predictSurgeryDuration p).predicted = (k : ℚ)) ∧
      15 ≤ (predictSurgeryDuration p).predicted ∧
      (predictSurgeryDuration p).lower ≤ (predictSurgeryDuration p).predicted ∧
      (predictSurgeryDuration p).predicted ≤ (predictSurgeryDuration p).upper := by
  intro p h1 h5
  have hite : (0 : ℚ) ≤ (if p.isEmergency then (0.06 : ℚ) else 0) := by
    split_ifs <;> norm_num
  have hm : (0 : ℚ) ≤ 0.08 + p.complexity * 0.025 + (if p.isEmergency then (0.06 : ℚ) else 0) := by
    nlinarith
  refine ⟨rfl, ?_, ?_, ?_, ?_⟩
  · simp only [predictSurgeryDuration]
    exact (duration_core _ _ hm).1
  · simp only [predictSurgeryDuration]
    exact (duration_core _ _ hm).2.1
  · simp only [predictSurgeryDuration]
    exact (duration_core _ _ hm).2.2.1
  · simp only [predictSurgeryDuration]
    exact (duration_core _ _ hm).2.2.2

/-- Witness for C9 at a concrete feature vector. -/
theorem predictSurgeryDuration_bounds_witness :
    predictSurgeryDuration { complexity := 3, estimatedDuration := 60 } =
      predictSurgeryDuration { complexity := 3, estimatedDuration := 60 } ∧
    (∃ k : ℤ, (predictSurgeryDuration { complexity := 3, estimatedDuration := 60 }).predicted = (k : ℚ)) ∧
    15 ≤ (predictSurgeryDuration { complexity := 3, estimatedDuration := 60 }).predicted ∧
    (predictSurgeryDuration { complexity := 3, estimatedDuration := 60 }).lower ≤
      (predictSurgeryDuration { complexity := 3, estimatedDuration := 60 }).predicted ∧
    (predictSurgeryDuration { complexity := 3, estimatedDuration := 60 }).predicted ≤
      (predictSurgeryDuration { complexity := 3, estimatedDuration := 60 }).upper :=
  predictSurgeryDuration_bounds { complexity := 3, estimatedDuration := 60 }
    (by norm_num) (by norm_num)

/-! ## C10 — the recommended sequence is a permutation of the input -/

theorem insertByScoreDesc_perm (x : SequenceSurgery) (l : List SequenceSurgery) :
    List.Perm (insertByScoreDesc x l) (x :: l) := by
  induction l with
  | nil => exact List.Perm.refl _
  | cons y ys ih =>
    unfold insertByScoreDesc
    split_ifs
    · exact (ih.cons y).trans (List.Perm.swap x y ys)
    · exact List.Perm.refl _

theorem sortByScoreDesc_perm (l : List SequenceSurgery) :
    List.Perm (sortByScoreDesc l) l := by
  induction l with
  | nil => exact List.Perm.refl _
  | cons x xs ih =>
    exact (insertByScoreDesc_perm x (sortByScoreDesc xs)).trans (ih.cons x)

theorem batchSequence_perm (l : List SequenceSurgery) :
    List.Perm (batchSequence l) l := by
  have main : ∀ (n : ℕ) (l : List SequenceSurgery), l.length ≤ n →
      List.Perm (batchSequence l) l := by
    intro n
    induction n with
    | zero =>
      intro l hl
      rw [Nat.le_zero, List.length_eq_zero] at hl
      subst hl
      rw [batchSequence]
    | succ n ih =>
      intro l hl
      cases l with
      | nil => rw [batchSequence]
      | cons next rest =>
        rw [batchSequence]
        have hrec : List.Perm
            (batchSequence (rest.filter fun s => !(sameBatch next s)))
            (rest.filter fun s => !(sameBatch next s)) := by
          refine ih _ (le_trans (List.length_filter_le _ _) ?_)
          simpa using Nat.lt_succ_iff.mp (lt_of_lt_of_le (by simp) hl)
        refine List.Perm.cons next ?_
        exact (((List.Perm.refl (rest.filter (sameBatch next))).append hrec).trans
          (List.filter_append_perm (sameBatch next) rest))
  exact main l.length l le_rfl

/-- Claim C10: `RecommendSequence` returns `orderedIds` that is a permutation
of the input surgeries' ids; in particular, when the input ids are pairwise
distinct, every input id appears exactly once in the output and no other id
appears. -/
theorem recommendSurgerySequence_ids_once :
    ∀ (l : List SequenceSurgery),
      List.Perm (recommendSurgerySequence l).orderedIds (l.map SequenceSurgery.id) ∧
      ((l.map SequenceSurgery.id).Nodup →
        (∀ i ∈ l.map SequenceSurgery.id,
          (recommendSurgerySequence l).orderedIds.count i = 1) ∧
        (∀ i, i ∉ l.map SequenceSurgery.id →
          (recommendSurgerySequence l).orderedIds.count i = 0)) := by
  intro l
  have hperm : List.Perm (recommendSurgerySequence l).orderedIds
      (l.map SequenceSurgery.id) := by
    simp only [recommendSurgerySequence]
    exact ((batchSequence_perm (sortByScoreDesc l)).trans (sortByScoreDesc_perm l)).map
      SequenceSurgery.id
  refine ⟨hperm, fun hnd => ⟨?_, ?_⟩⟩
  · intro i hi
    rw [hperm.count_eq]
    exact List.count_eq_one_of_mem hnd hi
  · intro i hi
    rw [hperm.count_eq]
    exact List.count_eq_zero_of_not_mem hi

/-! ## Distinctness of the engine's violation messages

The hard-violation categories produce strings with distinct first characters
(`T`, `O`, `S`, `E`); the two surgeon messages share a prefix but end in
distinct characters. -/

theorem head?_append_str (p a : String) (c : Char) (hp : p.data.head? = some c) :
    (p ++ a).data.head? = some c := by
  rw [String.data_append]
  cases hd : p.data with
  | nil => rw [hd] at hp; exact absurd hp (by simp)
  | cons x xs =>
    rw [hd] at hp
    simp only [List.head?_cons, Option.some_inj] at hp
    rw [List.cons_append]
    simp [hp]

theorem getLast?_append_str (p s : String) (c : Char) (hs : s.data.getLast? = some c) :
    (p ++ s).data.getLast? = some c := by
  have hne : s.data ≠ [] := by
    intro h0
    rw [h0] at hs
    exact absurd hs (by simp)
  rw [String.data_append, List.getLast?_append_of_ne_nil _ hne]
  exact hs

theorem ne_of_head_ne (s t : String) (cs ct : Char) (hs : s.data.head? = some cs)
    (ht : t.data.head? = some ct) (h : cs ≠ ct) : s ≠ t := by
  intro he
  rw [he] at hs
  rw [hs] at ht
  exact h (Option.some_inj.mp ht)

theorem ne_of_last_ne (s t : String) (cs ct : Char) (hs : s.data.getLast? = some cs)
    (ht : t.data.getLast? = some ct) (h : cs ≠ ct) : s ≠ t := by
  intro he
  rw [he] at hs
  rw [hs] at ht
  exact h (Option.some_inj.mp ht)

theorem timeConflictMsg_head (a : String) :
    (timeConflictMsg a).data.head? = some 'T' :=
  head?_append_str _ _ _ rfl

theorem capabilityMsg_head (b c : String) :
    (capabilityMsg b c).data.head? = some 'O' :=
  head?_append_str _ _ _ (head?_append_str _ _ _ (head?_append_str _ _ _ rfl))

theorem surgeonMismatchMsg_head (n : String) :
    (surgeonMismatchMsg n).data.head? = some 'S' :=
  head?_append_str _ _ _ (head?_append_str _ _ _ rfl)

theorem surgeonHoursMsg_head (n : String) :
    (surgeonHoursMsg n).data.head? = some 'S' :=
  head?_append_str _ _ _ (head?_append_str _ _ _ rfl)

theorem equipmentUnavailableMsg_head (n st : String) :
    (equipmentUnavailableMsg n st).data.head? = some 'E' :=
  head?_append_str _ _ _ (head?_append_str _ _ _
    (head?_append_str _ _ _ (head?_append_str _ _ _ rfl)))

theorem equipmentSterilizingMsg_head (n : String) :
    (equipmentSterilizingMsg n).data.head? = some 'E' :=
  head?_append_str _ _ _ (head?_append_str _ _ _ rfl)

theorem surgeonHoursMsg_last (n : String) :
    (surgeonHoursMsg n).data.getLast? = some 't' :=
  getLast?_append_str _ _ _ rfl

theorem surgeonMismatchMsg_last (n : String) :
    (surgeonMismatchMsg n).data.getLast? = some 'h' :=
  getLast?_append_str _ _ _ rfl

theorem timeConflictMsg_ne_capabilityMsg (a b c : String) :
    timeConflictMsg a ≠ capabilityMsg b c :=
  ne_of_head_ne _ _ 'T' 'O' (timeConflictMsg_head a) (capabilityMsg_head b c) (by decide)

theorem timeConflictMsg_ne_surgeonMismatchMsg (a n : String) :
    timeConflictMsg a ≠ surgeonMismatchMsg n :=
  ne_of_head_ne _ _ 'T' 'S' (timeConflictMsg_head a) (surgeonMismatchMsg_head n) (by decide)

theorem timeConflictMsg_ne_surgeonHoursMsg (a n : String) :
    timeConflictMsg a ≠ surgeonHoursMsg n :=
  ne_of_head_ne _ _ 'T' 'S' (timeConflictMsg_head a) (surgeonHoursMsg_head n) (by decide)

theorem timeConflictMsg_ne_equipmentUnavailableMsg (a n st : String) :
    timeConflictMsg a ≠ equipmentUnavailableMsg n st :=
  ne_of_head_ne _ _ 'T' 'E' (timeConflictMsg_head a)
    (equipmentUnavailableMsg_head n st) (by decide)

theorem timeConflictMsg_ne_equipmentSterilizingMsg (a n : String) :
    timeConflictMsg a ≠ equipmentSterilizingMsg n :=
  ne_of_head_ne _ _ 'T' 'E' (timeConflictMsg_head a)
    (equipmentSterilizingMsg_head n) (by decide)

theorem surgeonHoursMsg_ne_capabilityMsg (a b c : String) :
    surgeonHoursMsg a ≠ capabilityMsg b c :=
  ne_of_head_ne _ _ 'S' 'O' (surgeonHoursMsg_head a) (capabilityMsg_head b c) (by decide)

theorem surgeonHoursMsg_ne_surgeonMismatchMsg (a n : String) :
    surgeonHoursMsg a ≠ surgeonMismatchMsg n :=
  ne_of_last_ne _ _ 't' 'h' (surgeonHoursMsg_last a) (surgeonMismatchMsg_last n) (by decide)

theorem surgeonHoursMsg_ne_equipmentUnavailableMsg (a n st : String) :
    surgeonHoursMsg a ≠ equipmentUnavailableMsg n st :=
  ne_of_head_ne _ _ 'S' 'E' (surgeonHoursMsg_head a)
    (equipmentUnavailableMsg_head n st) (by decide)

theorem surgeonHoursMsg_ne_equipmentSterilizingMsg (a n : String) :
    surgeonHoursMsg a ≠ equipmentSterilizingMsg n :=
  ne_of_head_ne _ _ 'S' 'E' (surgeonHoursMsg_head a)
    (equipmentSterilizingMsg_head n) (by decide)

/-! ## Membership in the violation components -/

theorem mem_overlapViolations (proposedOR : OperatingRoom) (pS pE : ℤ)
    (slots : List ScheduleSlot) (msg : String) :
    msg ∈ overlapViolations proposedOR pS pE slots ↔
      msg = timeConflictMsg proposedOR.name ∧
        ∃ s ∈ slots, s.or_id = proposedOR.id ∧ pS < s.end_time ∧ pE > s.start_time := by
  unfold overlapViolations
  simp only [List.mem_map, List.mem_filter, beq_iff_eq, decide_eq_true_eq]
  constructor
  · rintro ⟨s, ⟨⟨hs, hid⟩, hov⟩, hmsg⟩
    exact ⟨hmsg.symm, s, hs, hid, hov⟩
  · rintro ⟨hmsg, s, hs, hid, hov⟩
    exact ⟨s, ⟨⟨hs, hid⟩, hov⟩, hmsg.symm⟩

theorem mem_capabilityViolations (surgery : Surgery) (proposedOR : OperatingRoom)
    (msg : String) (h : msg ∈ capabilityViolations surgery proposedOR) :
    ∃ spec, msg = capabilityMsg proposedOR.name spec := by
  unfold capabilityViolations at h
  cases hs : surgery.specialization_required with
  | none => rw [hs] at h; exact absurd h (by simp)
  | some spec =>
    rw [hs] at h
    dsimp only at h
    split_ifs at h with hc
    · exact ⟨spec, (List.mem_singleton.mp h)⟩
    · exact absurd h (by simp)

theorem mem_surgeonSpecViolations (surgery : Surgery) (surgeon : Option Staff)
    (msg : String) (h : msg ∈ surgeonSpecViolations surgery surgeon) :
    ∃ sg, surgeon = some sg ∧ msg = surgeonMismatchMsg sg.full_name := by
  unfold surgeonSpecViolations at h
  cases surgeon with
  | none => exact absurd h (by simp)
  | some sg =>
    cases hs : surgery.specialization_required with
    | none => rw [hs] at h; exact absurd h (by simp)
    | some spec =>
      rw [hs] at h
      dsimp only at h
      split_ifs at h with hc
      · exact ⟨sg, rfl, List.mem_singleton.mp h⟩
      · exact absurd h (by simp)

theorem mem_surgeonHoursViolations (surgeon : Option Staff) (pS pE : ℤ)
    (slots : List ScheduleSlot) (msg : String) :
    msg ∈ surgeonHoursViolations surgeon pS pE slots ↔
      ∃ sg, surgeon = some sg ∧ msg = surgeonHoursMsg sg.full_name ∧
        surgeonAssignedMinutes sg slots + ((pE : ℚ) - (pS : ℚ)) / 60000 > 12 * 60 := by
  unfold surgeonHoursViolations
  cases surgeon with
  | none => simp
  | some sg =>
    simp only [Option.some_inj]
    split_ifs with hc
    · simp only [List.mem_singleton]
      constructor
      · intro h
        exact ⟨sg, rfl, h, hc⟩
      · rintro ⟨sg2, rfl, hmsg, _⟩
        exact hmsg
    · simp only [List.not_mem_nil, false_iff]
      rintro ⟨sg2, heq, hmsg, hgt⟩
      rw [heq] at hc
      exact hc hgt

theorem mem_equipmentViolations (equipmentList : Option (List Equipment)) (msg : String)
    (h : msg ∈ equipmentViolations equipmentList) :
    ∃ n st, msg = equipmentUnavailableMsg n st ∨ msg = equipmentSterilizingMsg n := by
  unfold equipmentViolations at h
  cases equipmentList with
  | none => exact absurd h (by simp)
  | some eqs =>
    simp only [List.mem_flatten, List.mem_map] at h
    obtain ⟨part, ⟨eq, _, hpart⟩, hmem⟩ := h
    rw [← hpart] at hmem
    rw [List.mem_append] at hmem
    rcases hmem with hm | hm
    · split_ifs at hm with hc
      · exact ⟨eq.name, eq.status, Or.inl (List.mem_singleton.mp hm)⟩
      · exact absurd hm (by simp)
    · split_ifs at hm with hc
      · exact ⟨eq.name, eq.status, Or.inr (List.mem_singleton.mp hm)⟩
      · exact absurd hm (by simp)

/-! ## C2 — exact half-open overlap detection -/

/-- Claim C2: the `no_overlap` hard rule fires exactly when some existing
slot of the same room satisfies `proposedStart < slotEnd ∧
proposedEnd > slotStart` (half-open windows); in particular `[10:00,11:00)`
against an existing `[10:59,12:00)` slot of the same room conflicts, while
`[11:00,12:00)` against `[10:00,11:00)` does not. -/
theorem checkConstraints_no_overlap_iff :
    (∀ (surgery : Surgery) (proposedOR : OperatingRoom) (pS pE : ℤ)
        (slots : List ScheduleSlot) (sg : Option Staff) (eqL : Option (List Equipment)),
      timeConflictMsg proposedOR.name ∈
          (checkConstraints surgery proposedOR pS pE slots sg eqL).hardViolations ↔
        ∃ s ∈ slots, s.or_id = proposedOR.id ∧ pS < s.end_time ∧ pE > s.start_time) ∧
    (checkConstraints sampleSurgery sampleRoom 36000000 39600000
      [sampleSlotAt 39540000 43200000]).hasConflict = true ∧
    timeConflictMsg sampleRoom.name ∈
      (checkConstraints sampleSurgery sampleRoom 36000000 39600000
        [sampleSlotAt 39540000 43200000]).hardViolations ∧
    (checkConstraints sampleSurgery sampleRoom 39600000 43200000
      [sampleSlotAt 36000000 39600000]).hasConflict = false := by
  refine ⟨?_, by decide, by decide, by decide⟩
  intro surgery proposedOR pS pE slots sg eqL
  show timeConflictMsg proposedOR.name ∈
      hardViolationsOf surgery proposedOR pS pE slots sg eqL ↔ _
  unfold hardViolationsOf
  simp only [List.mem_append]
  constructor
  · rintro ((((h | h) | h) | h) | h)
    · exact ((mem_overlapViolations _ _ _ _ _).mp h).2
    · obtain ⟨spec, hm⟩ := mem_capabilityViolations _ _ _ h
      exact absurd hm (timeConflictMsg_ne_capabilityMsg _ _ _)
    · obtain ⟨sg2, _, hm⟩ := mem_surgeonSpecViolations _ _ _ h
      exact absurd hm (timeConflictMsg_ne_surgeonMismatchMsg _ _)
    · obtain ⟨sg2, _, hm, _⟩ := (mem_surgeonHoursViolations _ _ _ _ _).mp h
      exact absurd hm (timeConflictMsg_ne_surgeonHoursMsg _ _)
    · obtain ⟨n, st, hm | hm⟩ := mem_equipmentViolations _ _ h
      · exact absurd hm (timeConflictMsg_ne_equipmentUnavailableMsg _ _ _)
      · exact absurd hm (timeConflictMsg_ne_equipmentSterilizingMsg _ _)
  · rintro ⟨s, hs, hid, hov⟩
    exact Or.inl (Or.inl (Or.inl (Or.inl
      ((mem_overlapViolations _ _ _ _ _).mpr ⟨rfl, s, hs, hid, hov⟩))))

/-! ## C3 — the surgeon-hours rule uses a fixed 12-hour threshold -/

theorem foldl_minutes_div (l : List ScheduleSlot) (a : ℤ) :
    l.foldl (fun sum s => sum + ((s.end_time : ℚ) - (s.start_time : ℚ)) / 60000)
        ((a : ℚ) / 60000) =
      ((l.foldl (fun sum s => sum + (s.end_time - s.start_time)) a : ℤ) : ℚ) / 60000 := by
  induction l generalizing a with
  | nil => rfl
  | cons x xs ih =>
    simp only [List.foldl_cons]
    rw [← ih]
    congr 1
    push_cast
    ring

theorem surgeonAssignedMinutes_eq (sg : Staff) (slots : List ScheduleSlot) :
    surgeonAssignedMinutes sg slots =
      (((slots.filter fun s => (s.surgery.bind Surgery.surgeon_id) == some sg.id).foldl
          (fun a s => a + (s.end_time - s.start_time)) 0 : ℤ) : ℚ) / 60000 := by
  unfold surgeonAssignedMinutes
  rw [show (0 : ℚ) = ((0 : ℤ) : ℚ) / 60000 by norm_num]
  exact foldl_minutes_div _ 0

/-- Claim C3 counterexample: a surgeon with `max_hours_per_day = 1` and no
existing slots, checked for a 2-hour window: the claimed rule (threshold =
the surgeon's own attribute) predicts a rejection, but the engine reports no
hard violation at all (its threshold is the fixed 12 hours). -/
theorem surgeonHours_attribute_cex :
    surgeonHoursMsg sampleStaffMax1.full_name ∉
      (checkConstraints sampleSurgery sampleRoom 0 7200000 []
        (some sampleStaffMax1) none).hardViolations ∧
    surgeonAssignedMinutes sampleStaffMax1 [] + ((7200000 : ℚ) - (0 : ℚ)) / 60000 >
      (sampleStaffMax1.max_hours_per_day : ℚ) * 60 := by
  constructor
  · show surgeonHoursMsg sampleStaffMax1.full_name ∉
      hardViolationsOf sampleSurgery sampleRoom 0 7200000 [] (some sampleStaffMax1) none
    have : hardViolationsOf sampleSurgery sampleRoom 0 7200000 []
        (some sampleStaffMax1) none = [] := by
      unfold hardViolationsOf overlapViolations capabilityViolations
        surgeonSpecViolations surgeonHoursViolations equipmentViolations
        surgeonAssignedMinutes
      norm_num [sampleSurgery]
    rw [this]
    exact List.not_mem_nil _
  · norm_num [surgeonAssignedMinutes, sampleStaffMax1]

/-- Claim C3 (amended): for every surgeon supplied to `checkConstraints`, the
surgeon-hours hard rule fires exactly when the sum of the surgeon's existing
assigned slot durations plus the new window's duration exceeds the fixed
12-hour limit (720 minutes) — the surgeon's `max_hours_per_day` attribute is
not consulted. -/
theorem surgeonHours_threshold_12h :
    ∀ (surgery : Surgery) (proposedOR : OperatingRoom) (pS pE : ℤ)
      (slots : List ScheduleSlot) (sg : Staff) (eqL : Option (List Equipment)),
      surgeonHoursMsg sg.full_name ∈
          (checkConstraints surgery proposedOR pS pE slots (some sg) eqL).hardViolations ↔
        720 * 60000 <
          (slots.filter fun s => (s.surgery.bind Surgery.surgeon_id) == some sg.id).foldl
            (fun a s => a + (s.end_time - s.start_time)) 0 + (pE - pS) := by
  intro surgery proposedOR pS pE slots sg eqL
  have key : surgeonAssignedMinutes sg slots + ((pE : ℚ) - (pS : ℚ)) / 60000 > 12 * 60 ↔
      720 * 60000 <
        (slots.filter fun s => (s.surgery.bind Surgery.surgeon_id) == some sg.id).foldl
          (fun a s => a + (s.end_time - s.start_time)) 0 + (pE - pS) := by
    rw [surgeonAssignedMinutes_eq]
    rw [div_add_div_same, gt_iff_lt, lt_div_iff (by norm_num)]
    rw [show ((12 : ℚ) * 60) * 60000 = ((720 * 60000 : ℤ) : ℚ) by norm_num]
    rw [show ((((slots.filter fun s => (s.surgery.bind Surgery.surgeon_id) == some sg.id).foldl
          (fun a s => a + (s.end_time - s.start_time)) 0 : ℤ) : ℚ) + ((pE : ℚ) - (pS : ℚ))) =
        (((slots.filter fun s => (s.surgery.bind Surgery.surgeon_id) == some sg.id).foldl
          (fun a s => a + (s.end_time - s.start_time)) 0 + (pE - pS) : ℤ) : ℚ) by push_cast; ring]
    exact Int.cast_lt
  rw [← key]
  show surgeonHoursMsg sg.full_name ∈
      hardViolationsOf surgery proposedOR pS pE slots (some sg) eqL ↔ _
  unfold hardViolationsOf
  simp only [List.mem_append]
  constructor
  · rintro ((((h | h) | h) | h) | h)
    · obtain ⟨hm, _⟩ := (mem_overlapViolations _ _ _ _ _).mp h
      exact absurd hm.symm (timeConflictMsg_ne_surgeonHoursMsg _ _)
    · obtain ⟨spec, hm⟩ := mem_capabilityViolations _ _ _ h
      exact absurd hm (surgeonHoursMsg_ne_capabilityMsg _ _ _)
    · obtain ⟨sg2, _, hm⟩ := mem_surgeonSpecViolations _ _ _ h
      exact absurd hm (surgeonHoursMsg_ne_surgeonMismatchMsg _ _)
    · obtain ⟨sg2, hsg2, _, hgt⟩ := (mem_surgeonHoursViolations _ _ _ _ _).mp h
      cases Option.some_inj.mp hsg2
      exact hgt
    · obtain ⟨n, st, hm | hm⟩ := mem_equipmentViolations _ _ h
      · exact absurd hm (surgeonHoursMsg_ne_equipmentUnavailableMsg _ _ _)
      · exact absurd hm (surgeonHoursMsg_ne_equipmentSterilizingMsg _ _)
  · intro hgt
    refine Or.inl (Or.inr ?_)
    exact (mem_surgeonHoursViolations _ _ _ _ _).mpr ⟨sg, rfl, rfl, hgt⟩

/-! ## C4 — room status is never consulted by the engine or the allocator -/

theorem update_status_id (r : OperatingRoom) (v : String) :
    ({ r with status := v } : OperatingRoom).id = r.id := rfl

theorem update_status_name (r : OperatingRoom) (v : String) :
    ({ r with status := v } : OperatingRoom).name = r.name := rfl

theorem update_status_room_type (r : OperatingRoom) (v : String) :
    ({ r with status := v } : OperatingRoom).room_type = r.room_type := rfl

theorem update_status_capabilities (r : OperatingRoom) (v : String) :
    ({ r with status := v } : OperatingRoom).capabilities = r.capabilities := rfl

theorem findSkipsRoom_update_status (surgery : Surgery) (r : OperatingRoom) (v : String) :
    findSkipsRoom surgery { r with status := v } = findSkipsRoom surgery r := rfl

/-- Claim C4 counterexample: a room whose status is `maintenance` with no
existing slots: `checkConstraints` reports no conflict for a placement in
it, and `findBestSlot` happily allocates the 07:15–08:15 window in it. -/
theorem roomStatus_not_enforced_cex :
    sampleMaintRoom.status = "maintenance" ∧
    (checkConstraints sampleSurgery sampleMaintRoom 36000000 39600000 []).hasConflict
      = false ∧
    findBestSlot sampleSurgery [sampleMaintRoom] [] 0 =
      some (sampleMaintRoom, 26100000, 29700000) := by
  refine ⟨rfl, by decide, by decide⟩

/-- Claim C4 (amended): the engine and the allocator never consult
`OperatingRoom.status`: `checkConstraints` returns identical results for any
two statuses of the same room, and `findBestSlot` over status-rewritten rooms
returns the same window in the same (status-rewritten) room. In particular a
`maintenance`/`blocked` room is treated exactly like an `available` one. -/
theorem roomStatus_ignored :
    (∀ (surgery : Surgery) (r : OperatingRoom) (st1 st2 : String) (pS pE : ℤ)
        (slots : List ScheduleSlot) (sg : Option Staff) (eqL : Option (List Equipment)),
      checkConstraints surgery { r with status := st1 } pS pE slots sg eqL =
        checkConstraints surgery { r with status := st2 } pS pE slots sg eqL) ∧
    (∀ (surgery : Surgery) (rooms : List OperatingRoom) (f : OperatingRoom → String)
        (slots : List ScheduleSlot) (base : ℤ),
      findBestSlot surgery (rooms.map fun r => { r with status := f r }) slots base =
        (findBestSlot surgery rooms slots base).map
          (fun x => ({ x.1 with status := f x.1 }, x.2))) := by
  constructor
  · intro surgery r st1 st2 pS pE slots sg eqL
    rfl
  · intro surgery rooms f slots base
    induction rooms with
    | nil => rfl
    | cons r rest ih =>
      simp only [List.map_cons, findBestSlot, findSkipsRoom_update_status,
        update_status_id]
      by_cases hskip : findSkipsRoom surgery r = true
      · simp only [hskip, if_true, ih]
      · simp only [hskip, if_false, Bool.false_eq_true]
        cases hsg : searchGap (SETUP_MS + (surgery.estimated_duration : ℤ) * 60000 +
            CLEANUP_MS) (base + 20 * 3600000)
            (sortByStart (slots.filter fun s => s.or_id == r.id)) (base + 7 * 3600000) with
        | none => simp only [hsg, ih]
        | some w => rfl

/-! ## C5 — allocator/checker consistency -/

theorem insertByStart_perm (x : ScheduleSlot) (l : List ScheduleSlot) :
    List.Perm (insertByStart x l) (x :: l) := by
  induction l with
  | nil => exact List.Perm.refl _
  | cons y ys ih =>
    unfold insertByStart
    split_ifs
    · exact (ih.cons y).trans (List.Perm.swap x y ys)
    · exact List.Perm.refl _

theorem sortByStart_perm (l : List ScheduleSlot) :
    List.Perm (sortByStart l) l := by
  induction l with
  | nil => exact List.Perm.refl _
  | cons x xs ih =>
    exact (insertByStart_perm x (sortByStart xs)).trans (ih.cons x)

theorem pairwise_insertByStart (x : ScheduleSlot) (l : List ScheduleSlot)
    (h : List.Pairwise (fun a b => a.start_time ≤ b.start_time) l) :
    List.Pairwise (fun a b => a.start_time ≤ b.start_time) (insertByStart x l) := by
  induction l with
  | nil => simp [insertByStart]
  | cons y ys ih =>
    rw [List.pairwise_cons] at h
    unfold insertByStart
    split_ifs with hc
    · rw [List.pairwise_cons]
      refine ⟨?_, ih h.2⟩
      intro b hb
      rcases List.mem_cons.mp ((insertByStart_perm x ys).mem_iff.mp hb) with rfl | hb'
      · exact le_of_lt hc
      · exact h.1 b hb'
    · rw [List.pairwise_cons]
      refine ⟨?_, List.pairwise_cons.mpr h⟩
      intro b hb
      rcases List.mem_cons.mp hb with rfl | hb'
      · exact le_of_not_lt hc
      · exact le_trans (le_of_not_lt hc) (h.1 b hb')

theorem sortByStart_sorted (l : List ScheduleSlot) :
    List.Pairwise (fun a b => a.start_time ≤ b.start_time) (sortByStart l) := by
  induction l with
  | nil => exact List.Pairwise.nil
  | cons x xs ih => exact pairwise_insertByStart x (sortByStart xs) ih

theorem searchGap_le (total dayEnd : ℤ) :
    ∀ (l : List ScheduleSlot) (t w : ℤ), searchGap total dayEnd l t = some w → t ≤ w := by
  intro l
  induction l with
  | nil =>
    intro t w h
    unfold searchGap at h
    split_ifs at h
    exact le_of_eq (Option.some_inj.mp h)
  | cons s rest ih =>
    intro t w h
    rw [searchGap] at h
    split_ifs at h with hc
    · exact le_of_eq (Option.some_inj.mp h)
    · exact le_trans (le_max_left _ _) (ih _ _ h)

theorem searchGap_avoids (total dayEnd : ℤ) :
    ∀ (l : List ScheduleSlot) (t w : ℤ),
      List.Pairwise (fun a b => a.start_time ≤ b.start_time) l →
      searchGap total dayEnd l t = some w →
      ∀ s ∈ l, s.end_time ≤ w ∨ w + total ≤ s.start_time := by
  intro l
  induction l with
  | nil =>
    intro t w _ _ s hs
    exact absurd hs (List.not_mem_nil s)
  | cons s0 rest ih =>
    intro t w hp h s hs
    rw [searchGap] at h
    rw [List.pairwise_cons] at hp
    split_ifs at h with hc
    · cases Option.some_inj.mp h
      rcases List.mem_cons.mp hs with rfl | hs'
      · right
        omega
      · right
        have := hp.1 s hs'
        omega
    · rcases List.mem_cons.mp hs with rfl | hs'
      · left
        have := searchGap_le total dayEnd rest (max t s.end_time) w h
        omega
      · exact ih (max t s0.end_time) w hp.2 h s hs'

theorem overlapViolations_eq_nil (r : OperatingRoom) (pS pE : ℤ)
    (slots : List ScheduleSlot)
    (h : ∀ s ∈ slots, s.or_id = r.id → ¬(pS < s.end_time ∧ pE > s.start_time)) :
    overlapViolations r pS pE slots = [] := by
  unfold overlapViolations
  rw [List.map_eq_nil_iff, List.filter_eq_nil_iff]
  intro a ha
  rw [List.mem_filter] at ha
  simp only [beq_iff_eq] at ha
  simpa using h a ha.1 ha.2

theorem capabilityViolations_eq_nil_of_not_skip (surgery : Surgery) (r : OperatingRoom)
    (h : findSkipsRoom surgery r = false) : capabilityViolations surgery r = [] := by
  unfold findSkipsRoom at h
  unfold capabilityViolations
  cases hs : surgery.specialization_required with
  | none => rfl
  | some spec =>
    rw [hs] at h
    dsimp only
    rw [if_neg]
    rw [decide_eq_false_iff_not] at h
    intro hcond
    exact h ⟨hcond.1, hcond.2.1, hcond.2.2.2⟩

/-- Claim C5: whenever `findBestSlot` returns a placement `(room, start,
end)`, re-validating that window through `checkConstraints` against the same
slot set (no surgeon, no equipment list) reports no hard violation. -/
theorem findBestSlot_checkConstraints_consistent :
    ∀ (surgery : Surgery) (rooms : List OperatingRoom) (slots : List ScheduleSlot)
      (base : ℤ) (room : OperatingRoom) (ws we : ℤ),
      findBestSlot surgery rooms slots base = some (room, ws, we) →
      (checkConstraints surgery room ws we slots none none).hasConflict = false := by
  intro surgery rooms
  induction rooms with
  | nil =>
    intro slots base room ws we h
    exact absurd h (by simp [findBestSlot])
  | cons r rest ih =>
    intro slots base room ws we h
    rw [findBestSlot] at h
    split_ifs at h with hskip
    · exact ih slots base room ws we h
    · dsimp only at h
      rcases hsg : searchGap (SETUP_MS + (surgery.estimated_duration : ℤ) * 60000 +
          CLEANUP_MS) (base + 20 * 3600000)
          (sortByStart (slots.filter fun s => s.or_id == r.id)) (base + 7 * 3600000) with
        _ | w
      · rw [hsg] at h
        exact ih slots base room ws we h
      · rw [hsg] at h
        obtain ⟨hroom, hws, hwe⟩ : r = room ∧ w + SETUP_MS = ws ∧
            w + SETUP_MS + (surgery.estimated_duration : ℤ) * 60000 = we := by
          have := Option.some_inj.mp h
          exact ⟨congrArg Prod.fst this, congrArg (fun p => p.2.1) this,
            congrArg (fun p => p.2.2) this⟩
        subst hroom hws hwe
        have havoid := searchGap_avoids _ _ _ _ _
          (sortByStart_sorted (slots.filter fun s => s.or_id == r.id)) hsg
        have hover : overlapViolations r (w + SETUP_MS)
            (w + SETUP_MS + (surgery.estimated_duration : ℤ) * 60000) slots = [] := by
          refine overlapViolations_eq_nil _ _ _ _ ?_
          intro s hs hid
          have hmem : s ∈ sortByStart (slots.filter fun s => s.or_id == r.id) :=
            (sortByStart_perm _).mem_iff.mpr
              (List.mem_filter.mpr ⟨hs, beq_iff_eq.mpr hid⟩)
          have hdisj := havoid s hmem
          have hdur : (0 : ℤ) ≤ (surgery.estimated_duration : ℤ) * 60000 := by positivity
          rcases hdisj with hcase | hcase
          · intro hcontra
            have : SETUP_MS = 15 * 60000 := rfl
            omega
          · intro hcontra
            have h1 : SETUP_MS = 15 * 60000 := rfl
            have h2 : CLEANUP_MS = 15 * 60000 := rfl
            omega
        have hcap : capabilityViolations surgery r = [] :=
          capabilityViolations_eq_nil_of_not_skip surgery r (by simpa using hskip)
        show decide (0 < (hardViolationsOf surgery r (w + SETUP_MS)
          (w + SETUP_MS + (surgery.estimated_duration : ℤ) * 60000) slots
          none none).length) = false
        unfold hardViolationsOf
        rw [hover, hcap]
        rfl

/-- Witness for C5 at a concrete allocation: `findBestSlot` places
`sampleSurgery` at 07:15-08:15 in the empty `sampleRoom`, and
`checkConstraints` confirms the window conflict-free. -/
theorem findBestSlot_checkConstraints_consistent_witness :
    (checkConstraints sampleSurgery sampleRoom 26100000 29700000 [] none none).hasConflict
      = false :=
  findBestSlot_checkConstraints_consistent sampleSurgery [sampleRoom] [] 0
    sampleRoom 26100000 29700000 (by decide)

/-! ## C1 — the placement operation does not delete pre-existing slots -/

/-- Claim C1 evidence (code bug): re-dragging the already placed surgery
`s1` (three existing slots at 10:00-11:00) to the conflict-free window
13:00-14:00 succeeds, sets the status to `scheduled` and inserts exactly
three new slots — but the three stale slots of `s1` survive, leaving six
slots for one surgery, because `scheduleSurgery` in
`src/app/actions/surgery.ts` performs no delete of the surgery's
pre-existing slots before the insert. -/
theorem placeSurgery_keeps_stale_slots :
    placeSurgery sampleSurgery sampleRoom true 46800000 sampleOldSlots =
      Except.ok (sampleOldSlots ++ sampleNewSlots, "scheduled") ∧
    ((sampleOldSlots ++ sampleNewSlots).countP fun s => s.surgery_id == "s1") = 6 := by
  constructor
  · rfl
  · decide
